import Mathlib

/-!
Shallow embedding of `enthought/traits/ui/wx/extra/list_canvas_editor.py`
(the traitsui wx "list canvas" editor) and proofs of the frozen claims
about its geometry/snapping engine, adapter resolution cache, and
activation state machine.

Coordinates and sizes are modelled as `Int` (wx pixel coordinates are
machine ints; no overflow is relevant at the claimed ranges).  Python 2
integer division `/` on ints is floor division, modelled by `Int.fdiv`.
-/

namespace ListCanvasEditor

/-- `SnapInfo` (source lines 610-628): the magnetic snap distance,
a `Range(0, 10, 0)` trait, hence a natural number. -/
structure SnapInfo where
  distance : Nat
  deriving DecidableEq, Repr

/-- Visibility enumeration used by `GuideInfo.visible` and
`GridInfo.visible`: `Enum('never', 'always', 'drag')`. -/
inductive Visibility where
  | never
  | always
  | drag
  deriving DecidableEq, Repr

/-- `GuideInfo` (source lines 634-671): guideline configuration.
Color and pen style do not affect any claim and are omitted. -/
structure GuideInfo where
  visible : Visibility
  snapping : Bool
  deriving DecidableEq, Repr

/-- `GridInfo` (source lines 677-730): grid configuration.  `size` is a
`Range(5, 200, 50)` trait and `offset` a `Range(0, 200, 0)` trait; both
are carried as `Int` here, with positivity supplied as a hypothesis
where a proof needs it. -/
structure GridInfo where
  visible : Visibility
  snapping : Bool
  size : Int
  offset : Int
  deriving DecidableEq, Repr

/-- The geometry of one `ListCanvasItem` as seen by the canvas:
`item.position` is `(x, y)` and `item.size` is `(dx, dy)`.  The `id`
field stands for Python object identity (`is` comparisons). -/
structure ItemGeom where
  id : Nat
  x : Int
  y : Int
  dx : Int
  dy : Int
  deriving DecidableEq, Repr

/-- The state of a `ListCanvas` needed by the geometry claims:
`size` is the canvas `(width, height)`, `items` the current canvas
items, `snap_info` / `guide_info` / `grid_info` the configuration
objects, `drag_item` the identity of `self._drag_item` (if any),
`drag_guides` the `self._drag_guides` pair of x/y guide coordinate
dictionaries (modelled by their key lists), and `state` the mouse
event-handler state string (e.g. `"normal"`, `"dragging"`). -/
structure Canvas where
  size : Int × Int
  items : List ItemGeom
  snap_info : SnapInfo
  guide_info : GuideInfo
  grid_info : GridInfo
  drag_item : Option Nat
  drag_guides : List Int × List Int
  state : String
  deriving DecidableEq, Repr

/-- `ListCanvas.snap_x` (source lines 1291-1336).  Adjusts the drag
delta `dx` for an edge at `x` to account for grid and guide-line
snapping.  Python 2 `/` on ints is floor division (`Int.fdiv`);
`abs(a) <= snap` is `a.natAbs ≤ snap`. -/
def snap_x (c : Canvas) (x dx : Int) : Int :=
  let snap := c.snap_info.distance
  if snap = 0 then dx
  else
    let xt := x + dx
    let gi := c.grid_info
    let grid : Option Int :=
      if gi.snapping then
        let n := Int.fdiv (xt - gi.offset) gi.size
        let x0 := n * gi.size + gi.offset
        if (xt - x0).natAbs ≤ snap then some (x0 - x)
        else
          let x1 := x0 + gi.size
          if (xt - x1).natAbs ≤ snap then some (x1 - x) else none
      else none
    match grid with
    | some r => r
    | none =>
      if c.guide_info.snapping then
        (c.drag_guides.1.foldl
          (fun st x0 =>
            if (xt - x0).natAbs ≤ st.1 then ((xt - x0).natAbs, x0 - x) else st)
          (snap, dx)).2
      else dx

/-- `ListCanvas.snap_y` (source lines 1338-1383): the y-axis twin of
`snap_x`, iterating over the y guide coordinates. -/
def snap_y (c : Canvas) (y dy : Int) : Int :=
  let snap := c.snap_info.distance
  if snap = 0 then dy
  else
    let yt := y + dy
    let gi := c.grid_info
    let grid : Option Int :=
      if gi.snapping then
        let n := Int.fdiv (yt - gi.offset) gi.size
        let y0 := n * gi.size + gi.offset
        if (yt - y0).natAbs ≤ snap then some (y0 - y)
        else
          let y1 := y0 + gi.size
          if (yt - y1).natAbs ≤ snap then some (y1 - y) else none
      else none
    match grid with
    | some r => r
    | none =>
      if c.guide_info.snapping then
        (c.drag_guides.2.foldl
          (fun st y0 =>
            if (yt - y0).natAbs ≤ st.1 then ((yt - y0).natAbs, y0 - y) else st)
          (snap, dy)).2
      else dy

/-- `ListCanvas._guide_lines` (source lines 1506-1523).  Builds the x
and y guide coordinate dictionaries: the canvas boundaries `0` and
`size - 1`, plus each non-dragged item's edges.  A Python dict keyed by
coordinates is modelled by the list of inserted keys (membership is
what every use of the result consumes). -/
def guide_lines (c : Canvas) : List Int × List Int :=
  let xs : List Int := [0, c.size.1 - 1]
  let ys : List Int := [0, c.size.2 - 1]
  c.items.foldl
    (fun (p : List Int × List Int) item =>
      if c.drag_item = some item.id then p
      else (p.1 ++ [item.x, item.x + item.dx], p.2 ++ [item.y, item.y + item.dy]))
    (xs, ys)

/-- `ListCanvas.initial_position_for` (source lines 1236-1256).
Scans the items for the bottom-most row, then either appends to its
right edge or wraps to `x = 0` on the next row when the item would not
fit horizontally.  (`dy` is accepted but unused, as in the source.) -/
def initial_position_for (c : Canvas) (dx dy : Int) : Int × Int :=
  let cdx := c.size.1
  let acc := c.items.foldl
    (fun (st : Int × Int × Int) item =>
      let xmax := st.1
      let ymax := st.2.1
      let ynext := st.2.2
      if item.y > ymax then (item.x + item.dx, item.y, item.y + item.dy)
      else if item.y = ymax then
        (max xmax (item.x + item.dx), ymax, max ynext (item.y + item.dy))
      else st)
    (0, 0, 0)
  if acc.1 + dx > cdx then (0, acc.2.2) else (acc.1, acc.2.1)

/-- `ListCanvasItem._set_cursor` (source lines 1017-1061), restricted
to its returned drag `mode` (the cursor shape it also sets is pure
toolkit output).  `can_resize` / `can_move` are the adapter's answers
for the item's object, `xtop` / `xbottom` come from the theme's image
slice, `(x, y)` is the pointer position and `(dx, dy)` the item size. -/
def set_cursor_mode (can_resize can_move : Bool) (xtop xbottom : Int)
    (x y dx dy : Int) : Nat :=
  let n : Int := 4
  if 0 ≤ x ∧ x < dx ∧ 0 ≤ y ∧ y < dy then
    let mode : Nat :=
      if can_resize then
        if x < n then
          if y < n then 15
          else if y ≥ dy - n then 7
          else 5
        else if x ≥ dx - n then
          if y < n then 11
          else if y ≥ dy - n then 3
          else 1
        else if y < n ∨ y ≥ dy - n then
          if y < n then 10 else 2
        else 0
      else 0
    if mode = 0 ∧ can_move ∧ (y < xtop ∨ y ≥ dy - xbottom) then 12 else mode
  else 0

/-- `ListCanvasItem.resize` (source lines 832-875), as the pure
function from drag inputs to the `(x, y, dx, dy)` the control is set
to.  `mode` is the drag mode bit mask, `(xo, yo, dxo, dyo)` the item
frame recorded at drag start, `(dx, dy)` the mouse delta. -/
def resize (c : Canvas) (mode : Nat) (xo yo dxo dyo dx dy : Int) :
    Int × Int × Int × Int :=
  let dx := if mode &&& 0x05 = 0 then 0 else dx
  let dy := if mode &&& 0x0A = 0 then 0 else dy
  let xpart : Int × Int :=
    if mode &&& 0x04 ≠ 0 then
      let dxs := snap_x c xo dx
      if mode &&& 0x01 ≠ 0 then (xo + dxs, dxo - dxs)
      else if dxs = dx then (xo + snap_x c (xo + dxo) dx, dxo)
      else (xo + dxs, dxo)
    else if mode &&& 0x01 ≠ 0 then (xo, dxo + snap_x c (xo + dxo) dx)
    else (xo, dxo)
  let ypart : Int × Int :=
    if mode &&& 0x08 ≠ 0 then
      let dys := snap_y c yo dy
      if mode &&& 0x02 ≠ 0 then (yo + dys, dyo - dys)
      else if dys = dy then (yo + snap_y c (yo + dyo) dy, dyo)
      else (yo + dys, dyo)
    else if mode &&& 0x02 ≠ 0 then (yo, dyo + snap_y c (yo + dyo) dy)
    else (yo, dyo)
  (xpart.1, ypart.1, xpart.2, ypart.2)

/-- The guide-line drawing decision of `ListCanvas.canvas_paint`
(source lines 1463-1481): the condition
`(gi.visible == 'always') or ((gi.visible == 'drag') and
(self.state == 'dragging')) and (len(self.items) > 0)` — note the
Python precedence: `or` binds looser than `and`, so the item-count test
attaches only to the `'drag'` arm.  When the condition holds the guide
lines drawn are exactly `_guide_lines()`. -/
def canvas_paint_guides (c : Canvas) : Option (List Int × List Int) :=
  if c.guide_info.visible = Visibility.always
      ∨ ((c.guide_info.visible = Visibility.drag ∧ c.state = "dragging")
          ∧ 0 < c.items.length) then
    some (guide_lines c)
  else
    none

/-! ### Adapter attribute resolution (`ListCanvasAdapter._result_for`) -/

/-- A Python attribute value as resolved by the adapter machinery:
`none` is Python `None` (which is falsy), `some n` an opaque non-None
value (themes, titles, booleans, ... — only identity and None-ness
matter to the claims). -/
abbrev Val := Option Nat

/-- An item object as seen by `_result_for`: `mro` is the list of class
names in the item class's method resolution order (head = the item's
own class name), and `lci tn` is the value of the item's
`list_canvas_item_<tn>` trait when the item implements the
`IListCanvasItem` interface and has that trait (`none` otherwise). -/
structure PItem where
  mro : List String
  lci : String → Option Val

/-- The item's class name: `item.__class__.__name__`. -/
def PItem.className (it : PItem) : String := it.mro.headD ""

/-- A sub-adapter (`IListCanvasAdapter`): `accepts` is queried after
`adapter.item` / `adapter.drop` are assigned the current item and drop
object; `hasTrait tn` is `adapter.trait(tn) is not None`; `value` is
`getattr(adapter.set(item = ..., drop = ...), tn)`. -/
structure SubAdapter where
  accepts : PItem → Option PItem → Bool
  is_cacheable : Bool
  hasTrait : String → Bool
  value : PItem → Option PItem → String → Val

/-- The `ListCanvasAdapter` itself (the `self` of `_result_for`):
`hasTrait nm` is `self.trait(nm) is not None`; `value nm it drop` is
`getattr(self, nm)` evaluated after `self.item = it; self.drop = drop`
(adapter subclasses typically compute trait values from `self.item`). -/
structure MainAdapter where
  hasTrait : String → Bool
  value : String → PItem → Option PItem → Val

/-- A resolved attribute handler, as stored in the adapter cache.  The
closures built by `_result_for` capture the chosen sub-adapter (here
its index), or the attribute name looked up on `self`; they read
`self.item` / `self.drop` at invocation time. -/
inductive Handler where
  | sub (isGet : Bool) (i : Nat) (traitName : String)
  | attr (isGet : Bool) (name : String)
  deriving DecidableEq, Repr

/-- The adapter's handler cache, keyed by `'ClassName:name'`. -/
abbrev Cache := List (String × Handler)

/-- Invoking a handler closure with the current `self.item` /
`self.drop`.  A `set_` handler writes `True` into the trait and returns
Python `None`; only the returned value is modelled.  The outer `none`
marks the crash of invoking a dangling sub-adapter index (impossible
while the adapters list is unchanged, which is the claims' proviso). -/
def evalHandler (A : MainAdapter) (ads : List SubAdapter) (h : Handler)
    (it : PItem) (drop : Option PItem) : Option Val :=
  match h with
  | Handler.sub isGet i tn =>
    match ads.get? i with
    | some ad => some (if isGet then ad.value it drop tn else none)
    | none => none
  | Handler.attr isGet nm => some (if isGet then A.value nm it drop else none)

/-- The sub-adapter scan of `_result_for` (source lines 557-575): the
first adapter, with its index, whose `accepts` is true and which has
the trait. -/
def findSubFrom (ads : List SubAdapter) (k : Nat) (it : PItem)
    (drop : Option PItem) (tn : String) : Option (Nat × SubAdapter) :=
  match ads with
  | [] => none
  | ad :: rest =>
    if ad.accepts it drop && ad.hasTrait tn then some (k, ad)
    else findSubFrom rest (k + 1) it drop tn

/-- The mro scan of `_result_for` (source lines 578-582): the first
`'<ClassName>_<trait>'` attribute name that `self` has a trait for. -/
def mroAttr (A : MainAdapter) (mro : List String) (tn : String) :
    Option String :=
  match mro with
  | [] => none
  | k :: rest =>
    if A.hasTrait (k ++ "_" ++ tn) then some (k ++ "_" ++ tn)
    else mroAttr A rest tn

/-- `ListCanvasAdapter._get_handler_for` (source lines 594-604). -/
def get_handler_for (A : MainAdapter) (nm : String) (isGet : Bool) :
    Option Handler :=
  if A.hasTrait nm then some (Handler.attr isGet nm) else none

/-- `ListCanvasAdapter._result_for` (source lines 522-592) as a pure
function from the cache to the result and the updated cache.  The
outer `none` result marks the `TypeError` crash of invoking a `None`
handler (when not even the generic trait exists); the source stores
`None` in the cache in that case, which `cache.get` cannot distinguish
from a missing key, so the model simply leaves the cache unchanged. -/
def result_for (A : MainAdapter) (ads : List SubAdapter) (cache : Cache)
    (name : String) (it : PItem) (drop : Option PItem) : Option Val × Cache :=
  let isGet := name.take 4 == "get_"
  let tn := name.drop 4
  match it.lci tn with
  | some v => (some (if isGet then v else none), cache)
  | none =>
    let key := it.className ++ ":" ++ name
    match cache.lookup key with
    | some h => (evalHandler A ads h it drop, cache)
    | none =>
      match findSubFrom ads 0 it drop tn with
      | some (i, ad) =>
        let h := Handler.sub isGet i tn
        if ad.is_cacheable then (evalHandler A ads h it drop, (key, h) :: cache)
        else (evalHandler A ads h it drop, cache)
      | none =>
        let oh := match mroAttr A it.mro tn with
                  | some nm => some (Handler.attr isGet nm)
                  | none => get_handler_for A tn isGet
        match oh with
        | some h => (evalHandler A ads h it drop, (key, h) :: cache)
        | none => (none, cache)

/-- `ListCanvasAdapter.get_theme_inactive` (source lines 391-395):
`self._result_for('get_theme_inactive', item) or
 self._result_for('get_theme_active', item)` — Python `or` returns the
first operand when it is truthy (a non-None theme) and otherwise
evaluates and returns the second. -/
def get_theme_inactive (A : MainAdapter) (ads : List SubAdapter)
    (cache : Cache) (it : PItem) : Option Val × Cache :=
  let r1 := result_for A ads cache "get_theme_inactive" it none
  match r1.1 with
  | some (some t) => (some (some t), r1.2)
  | some none => result_for A ads r1.2 "get_theme_active" it none
  | none => (none, r1.2)

/-- `ListCanvasAdapter.get_theme_hover` (source lines 397-403): the
hover theme, falling back to the inactive theme, falling back to the
active theme. -/
def get_theme_hover (A : MainAdapter) (ads : List SubAdapter)
    (cache : Cache) (it : PItem) : Option Val × Cache :=
  let r1 := result_for A ads cache "get_theme_hover" it none
  match r1.1 with
  | some (some t) => (some (some t), r1.2)
  | some none =>
    let r2 := result_for A ads r1.2 "get_theme_inactive" it none
    match r2.1 with
    | some (some t) => (some (some t), r2.2)
    | some none => result_for A ads r2.2 "get_theme_active" it none
    | none => (none, r2.2)
  | none => (none, r1.2)

/-! ### Activation (`ListCanvas.activate`) -/

/-- The mouse event state of a `ListCanvasItem` (its `state` trait):
`'inactive'`, `'active'`, `'hover'` (plus the transient drag states of
the canvas itself, which items never take). -/
inductive ItemState where
  | inactive
  | active
  | hover
  deriving DecidableEq, Repr

/-- A canvas item as the activation logic sees it: its identity and
its current `state` trait. -/
structure AItem where
  id : Nat
  state : ItemState
  deriving DecidableEq, Repr

/-- The canvas state acted on by `activate`: the items (each holding
its own `state`) and `self.active_item` (by identity). -/
structure ActCanvas where
  items : List AItem
  active_item : Option Nat
  deriving DecidableEq, Repr

/-- The adapter notifications fired by `activate`
(`set_deactivated` / `set_activated`, source lines 1268 and 1274). -/
inductive Notice where
  | deactivated (id : Nat)
  | activated (id : Nat)
  deriving DecidableEq, Repr

/-- Assigning `item.state = s` to the item with the given identity. -/
def set_state (items : List AItem) (i : Nat) (s : ItemState) : List AItem :=
  items.map (fun it => if it.id = i then { it with state := s } else it)

/-- `ListCanvas.activate` (source lines 1258-1274): deactivate the
previous active item (if any, firing `set_deactivated`), then make
`item` the active item (if not `None`, setting its state and firing
`set_activated`).  Returns the new canvas state and the notifications
in firing order. -/
def activate (c : ActCanvas) (item : Option Nat) : ActCanvas × List Notice :=
  if item = c.active_item then (c, [])
  else
    let step1 : List AItem × List Notice :=
      match c.active_item with
      | some a => (set_state c.items a ItemState.inactive, [Notice.deactivated a])
      | none => (c.items, [])
    match item with
    | some i =>
      ({ items := set_state step1.1 i ItemState.active, active_item := item },
       step1.2 ++ [Notice.activated i])
    | none => ({ items := step1.1, active_item := item }, step1.2)

/-! ### Item list replacement (`ListCanvas.replace_items`) -/

/-- The effective end bound of the `[i:j]` slice of `replace_items`:
the source replaces `j` by `len(self_items)` when `j < 0`. -/
def slice_end (items : List Nat) (j : Int) : Nat :=
  if j < 0 then items.length else j.toNat

/-- The Python slice `items[i:j]` (after the negative-`j` fix-up),
with the usual clamping slice semantics. -/
def sliced_items (items : List Nat) (i : Nat) (j : Int) : List Nat :=
  (items.drop i).take (slice_end items j - i)

/-- The result of `ListCanvas.replace_items` (source lines 1205-1234):
the new items list, the new `active_item`, and the list of items that
were disposed (each had `dispose()` called on it).  Items are
identified by `Nat` identities; `new_items` are the replacement items,
`i` and `j` the slice bounds (`j < 0` means "to the end", following
the source's explicit check).  Python `del l[i:j]` keeps
`l.take i ++ l.drop (max i j)`; the `l.insert(i+k, x)` loop places the
replacements consecutively from index `i`. -/
def replace_items (items : List Nat) (active_item : Option Nat)
    (new_items : List Nat) (i : Nat) (j : Int) :
    List Nat × Option Nat × List Nat :=
  let sliced := sliced_items items i j
  let active' := match active_item with
                 | some a => if a ∈ sliced then none else active_item
                 | none => none
  let kept := items.take i ++ items.drop (max i (slice_end items j))
  (kept.take i ++ new_items ++ kept.drop i, active', sliced)

/-- The resize-mode decoding exactly as the specification claim lists
it, as an ordered case chain (each listed condition applies only when
no earlier one did). -/
def set_cursor_mode_claim (can_resize can_move : Bool) (xtop xbottom : Int)
    (x y dx dy : Int) : Nat :=
  if ¬ (0 ≤ x ∧ x < dx ∧ 0 ≤ y ∧ y < dy) then 0
  else
    let mode : Nat :=
      if can_resize then
        if x < 4 ∧ y < 4 then 15
        else if x < 4 ∧ y ≥ dy - 4 then 7
        else if x < 4 then 5
        else if x ≥ dx - 4 ∧ y < 4 then 11
        else if x ≥ dx - 4 ∧ y ≥ dy - 4 then 3
        else if x ≥ dx - 4 then 1
        else if y < 4 then 10
        else if y ≥ dy - 4 then 2
        else 0
      else 0
    if mode = 0 ∧ can_move ∧ (y < xtop ∨ y ≥ dy - xbottom) then 12 else mode

/-- A concrete main adapter used by witnesses: it carries only the
`theme_inactive` and `theme_active` traits; `theme_inactive` resolves
to the theme value `5` and `theme_active` to `None`. -/
def themeAdapter : MainAdapter where
  hasTrait := fun nm => nm == "theme_inactive" || nm == "theme_active"
  value := fun nm _ _ => if nm == "theme_inactive" then some 5 else none

/-- A concrete item of class `Person` (not implementing the
`IListCanvasItem` interface) used by witnesses. -/
def personItem : PItem where
  mro := ["Person"]
  lci := fun _ => none

/-- A second concrete item of class `Person`, distinguishable from
`personItem` through its `list_canvas_item_tag` trait (but, like it,
without a `list_canvas_item_title` trait). -/
def person2Item : PItem where
  mro := ["Person"]
  lci := fun nm => if nm == "tag" then some (some 1) else none

/-- A sub-adapter whose `accepts` answer depends on the item instance
(the `IListCanvasAdapter` interface sanctions this for adapters whose
`is_cacheable` is `False`): it rejects `personItem`, accepts
`person2Item`, and serves `title` as `99`. -/
def fickleAdapter : SubAdapter where
  accepts := fun it _ => it.lci "tag" == some (some 1)
  is_cacheable := false
  hasTrait := fun nm => nm == "title"
  value := fun _ _ _ => some 99

/-- A cacheable sub-adapter that accepts every item and serves `title`
as `77`. -/
def steadyAdapter : SubAdapter where
  accepts := fun _ _ => true
  is_cacheable := true
  hasTrait := fun nm => nm == "title"
  value := fun _ _ _ => some 77

section Theorems

/-- C3: `ListCanvasItem._set_cursor` decodes the drag mode from the
cursor position exactly as the specification's case list describes:
0 outside the item; for a resizable item 15/7/5 in the left 4-pixel
band (top corner / bottom corner / edge), 11/3/1 in the right band,
10/2 in the top/bottom bands; 12 when no resize mode applies, the item
is movable and the cursor is in the theme's title band; otherwise 0. -/
theorem set_cursor_mode_matches_claim (can_resize can_move : Bool)
    (xtop xbottom x y dx dy : Int) :
    set_cursor_mode can_resize can_move xtop xbottom x y dx dy =
      set_cursor_mode_claim can_resize can_move xtop xbottom x y dx dy := by
  unfold set_cursor_mode set_cursor_mode_claim
  by_cases hin : (0 ≤ x ∧ x < dx ∧ 0 ≤ y ∧ y < dy)
  · by_cases hx4 : x < 4 <;> by_cases hxr : x ≥ dx - 4 <;>
      by_cases hy4 : y < 4 <;> by_cases hyb : y ≥ dy - 4 <;>
      cases can_resize <;>
      simp [hin, hx4, hxr, hy4, hyb]
  · simp [hin]

/-- If the 0x05 mask of `mode` is clear so is the 0x04 bit. -/
lemma land_four_eq_zero {m : Nat} (h : m &&& 5 = 0) : m &&& 4 = 0 := by
  have h2 : (m &&& 5) &&& 4 = 0 &&& 4 := by rw [h]
  rw [Nat.land_assoc] at h2
  simpa using h2

/-- If the 0x05 mask of `mode` is clear so is the 0x01 bit. -/
lemma land_one_eq_zero {m : Nat} (h : m &&& 5 = 0) : m &&& 1 = 0 := by
  have h2 : (m &&& 5) &&& 1 = 0 &&& 1 := by rw [h]
  rw [Nat.land_assoc] at h2
  simpa using h2

/-- If the 0x0A mask of `mode` is clear so is the 0x08 bit. -/
lemma land_eight_eq_zero {m : Nat} (h : m &&& 10 = 0) : m &&& 8 = 0 := by
  have h2 : (m &&& 10) &&& 8 = 0 &&& 8 := by rw [h]
  rw [Nat.land_assoc] at h2
  simpa using h2

/-- If the 0x0A mask of `mode` is clear so is the 0x02 bit. -/
lemma land_two_eq_zero {m : Nat} (h : m &&& 10 = 0) : m &&& 2 = 0 := by
  have h2 : (m &&& 10) &&& 2 = 0 &&& 2 := by rw [h]
  rw [Nat.land_assoc] at h2
  simpa using h2

/-- C4: `ListCanvasItem.resize` leaves an axis untouched when that
axis's mode bits are clear: with `(mode & 0x05) == 0` the x-position
stays `xo` and the width stays `dxo` regardless of the mouse delta
`dx`; with `(mode & 0x0A) == 0` the y-position stays `yo` and the
height stays `dyo` regardless of `dy`. -/
theorem resize_axis_clear (c : Canvas) (mode : Nat) (xo yo dxo dyo dx dy : Int) :
    (mode &&& 0x05 = 0 →
      (resize c mode xo yo dxo dyo dx dy).1 = xo ∧
      (resize c mode xo yo dxo dyo dx dy).2.2.1 = dxo)
    ∧ (mode &&& 0x0A = 0 →
      (resize c mode xo yo dxo dyo dx dy).2.1 = yo ∧
      (resize c mode xo yo dxo dyo dx dy).2.2.2 = dyo) := by
  constructor
  · intro h
    have h4 := land_four_eq_zero h
    have h1 := land_one_eq_zero h
    unfold resize
    simp [h4, h1]
  · intro h
    have h8 := land_eight_eq_zero h
    have h2 := land_two_eq_zero h
    unfold resize
    simp [h8, h2]

/-- Witness for `resize_axis_clear` at mode 2 (pure bottom-edge drag):
the x-axis frame is untouched. -/
theorem resize_axis_clear_witness :
    ((2 : Nat) &&& 0x05 = 0) ∧
    (resize { size := (500, 400), items := [], snap_info := { distance := 5 },
              guide_info := { visible := Visibility.drag, snapping := true },
              grid_info := { visible := Visibility.never, snapping := true,
                             size := 50, offset := 0 },
              drag_item := none, drag_guides := ([], []), state := "normal" }
        2 10 20 30 40 99 7).1 = 10 ∧
    (resize { size := (500, 400), items := [], snap_info := { distance := 5 },
              guide_info := { visible := Visibility.drag, snapping := true },
              grid_info := { visible := Visibility.never, snapping := true,
                             size := 50, offset := 0 },
              drag_item := none, drag_guides := ([], []), state := "normal" }
        2 10 20 30 40 99 7).2.2.1 = 30 :=
  ⟨by decide,
   (resize_axis_clear _ 2 10 20 30 40 99 7).1 (by decide) |>.1,
   (resize_axis_clear _ 2 10 20 30 40 99 7).1 (by decide) |>.2⟩

/-- C7: `ListCanvas.initial_position_for` places a new item either so
that it fits horizontally (`x + dx ≤ canvas width`) or wrapped to the
left edge (`x = 0`); on an empty canvas it returns `(0, 0)`. -/
theorem initial_position_fits (c : Canvas) (dx dy : Int) :
    (c.items = [] → initial_position_for c dx dy = (0, 0))
    ∧ ((initial_position_for c dx dy).1 + dx ≤ c.size.1
        ∨ (initial_position_for c dx dy).1 = 0) := by
  constructor
  · intro h
    unfold initial_position_for
    rw [h]
    simp only [List.foldl_nil]
    split <;> rfl
  · unfold initial_position_for
    dsimp only
    split
    · right; rfl
    · left; omega

/-- C8: `ListCanvas.canvas_paint` draws guide lines according to
`guide_info.visible`: never when `'never'`; always when `'always'`;
and when `'drag'`, exactly while the canvas state is `'dragging'` and
at least one item is present. -/
theorem canvas_paint_guides_visibility (c : Canvas) :
    (c.guide_info.visible = Visibility.never → canvas_paint_guides c = none)
    ∧ (c.guide_info.visible = Visibility.always →
        canvas_paint_guides c = some (guide_lines c))
    ∧ (c.guide_info.visible = Visibility.drag →
        (canvas_paint_guides c = some (guide_lines c) ↔
          c.state = "dragging" ∧ 0 < c.items.length)) := by
  refine ⟨?_, ?_, ?_⟩ <;> intro h <;>
    simp [canvas_paint_guides, h, List.length_pos]

/-- Rearrangement used for snap distances: the delta between the raw
and the snapped drag amounts is the distance from the dragged edge to
the snap target. -/
lemma natAbs_delta (x dx x0 : Int) :
    (dx - (x0 - x)).natAbs = (x + dx - x0).natAbs := by
  have h : dx - (x0 - x) = x + dx - x0 := by ring
  rw [h]

/-- The guide-line scan of `snap_x` / `snap_y`: the fold either leaves
the drag delta unchanged or returns `x0 - x` for some guide coordinate
`x0` within the initial snap distance of the dragged edge `xt`. -/
lemma snap_foldl_spec (xt x : Int) (xs : List Int) (s0 : Nat) (d0 : Int) :
    (xs.foldl (fun st x0 =>
        if (xt - x0).natAbs ≤ st.1 then ((xt - x0).natAbs, x0 - x) else st)
      (s0, d0)).2 = d0
    ∨ ∃ x0 ∈ xs,
        (xs.foldl (fun st x0 =>
            if (xt - x0).natAbs ≤ st.1 then ((xt - x0).natAbs, x0 - x) else st)
          (s0, d0)).2 = x0 - x ∧ (xt - x0).natAbs ≤ s0 := by
  induction xs generalizing s0 d0 with
  | nil => left; rfl
  | cons a rest ih =>
    simp only [List.foldl_cons]
    by_cases h : (xt - a).natAbs ≤ s0
    · rw [if_pos h]
      rcases ih ((xt - a).natAbs) (a - x) with h1 | ⟨x0, hx0, he, hb⟩
      · exact Or.inr ⟨a, List.mem_cons_self a rest, h1, h⟩
      · exact Or.inr ⟨x0, List.mem_cons_of_mem a hx0, he, le_trans hb h⟩
    · rw [if_neg h]
      rcases ih s0 d0 with h1 | ⟨x0, hx0, he, hb⟩
      · exact Or.inl h1
      · exact Or.inr ⟨x0, List.mem_cons_of_mem a hx0, he, hb⟩

/-- Case analysis of `snap_x` for a positive snap distance: the delta
is unchanged, or snapped onto a grid line, or snapped onto an x guide
line, in both snapped cases within the snap distance. -/
lemma snap_x_cases (c : Canvas) (x dx : Int)
    (h : 0 < c.snap_info.distance) :
    snap_x c x dx = dx
    ∨ (c.grid_info.snapping = true
        ∧ (∃ k : Int, x + snap_x c x dx = c.grid_info.offset + k * c.grid_info.size)
        ∧ (dx - snap_x c x dx).natAbs ≤ c.snap_info.distance)
    ∨ (c.guide_info.snapping = true
        ∧ x + snap_x c x dx ∈ c.drag_guides.1
        ∧ (dx - snap_x c x dx).natAbs ≤ c.snap_info.distance) := by
  have hs0 : ¬ c.snap_info.distance = 0 := by omega
  simp only [snap_x]
  rw [if_neg hs0]
  split
  case h_1 r heq =>
    split_ifs at heq with hg h1 h2
    · injection heq with heq
      subst heq
      refine Or.inr (Or.inl ⟨hg, ⟨Int.fdiv (x + dx - c.grid_info.offset) c.grid_info.size, by ring⟩, ?_⟩)
      rw [natAbs_delta]
      exact h1
    · injection heq with heq
      subst heq
      refine Or.inr (Or.inl ⟨hg, ⟨Int.fdiv (x + dx - c.grid_info.offset) c.grid_info.size + 1, by ring⟩, ?_⟩)
      rw [natAbs_delta]
      exact h2
  case h_2 heq =>
    by_cases hgs : c.guide_info.snapping = true
    · rw [if_pos hgs]
      rcases snap_foldl_spec (x + dx) x c.drag_guides.1 c.snap_info.distance dx
        with h1 | ⟨x0, hx0, he, hb⟩
      · exact Or.inl h1
      · refine Or.inr (Or.inr ⟨hgs, ?_, ?_⟩)
        · rw [he]
          have hx : x + (x0 - x) = x0 := by ring
          rw [hx]
          exact hx0
        · rw [he, natAbs_delta]
          exact hb
    · rw [if_neg hgs]
      exact Or.inl rfl

/-- Case analysis of `snap_y`, the y-axis twin of `snap_x_cases`. -/
lemma snap_y_cases (c : Canvas) (y dy : Int)
    (h : 0 < c.snap_info.distance) :
    snap_y c y dy = dy
    ∨ (c.grid_info.snapping = true
        ∧ (∃ k : Int, y + snap_y c y dy = c.grid_info.offset + k * c.grid_info.size)
        ∧ (dy - snap_y c y dy).natAbs ≤ c.snap_info.distance)
    ∨ (c.guide_info.snapping = true
        ∧ y + snap_y c y dy ∈ c.drag_guides.2
        ∧ (dy - snap_y c y dy).natAbs ≤ c.snap_info.distance) := by
  have hs0 : ¬ c.snap_info.distance = 0 := by omega
  simp only [snap_y]
  rw [if_neg hs0]
  split
  case h_1 r heq =>
    split_ifs at heq with hg h1 h2
    · injection heq with heq
      subst heq
      refine Or.inr (Or.inl ⟨hg, ⟨Int.fdiv (y + dy - c.grid_info.offset) c.grid_info.size, by ring⟩, ?_⟩)
      rw [natAbs_delta]
      exact h1
    · injection heq with heq
      subst heq
      refine Or.inr (Or.inl ⟨hg, ⟨Int.fdiv (y + dy - c.grid_info.offset) c.grid_info.size + 1, by ring⟩, ?_⟩)
      rw [natAbs_delta]
      exact h2
  case h_2 heq =>
    by_cases hgs : c.guide_info.snapping = true
    · rw [if_pos hgs]
      rcases snap_foldl_spec (y + dy) y c.drag_guides.2 c.snap_info.distance dy
        with h1 | ⟨y0, hy0, he, hb⟩
      · exact Or.inl h1
      · refine Or.inr (Or.inr ⟨hgs, ?_, ?_⟩)
        · rw [he]
          have hy : y + (y0 - y) = y0 := by ring
          rw [hy]
          exact hy0
        · rw [he, natAbs_delta]
          exact hb
    · rw [if_neg hgs]
      exact Or.inl rfl

/-- C1: `ListCanvas.snap_x` / `snap_y` respect the snap distance: with
`snap_info.distance = 0` the delta is returned unchanged; with a
positive distance `d`, whenever the returned delta differs from the
input the snapped edge lands exactly on a grid line (an offset plus a
multiple of the grid size, grid snapping enabled) or on a drag-guide
line (guide snapping enabled), and the pixel distance moved,
`|(x + dx) - (x + dx')| = |dx - dx'|`, is at most `d`. -/
theorem snap_delta_on_grid_or_guide (c : Canvas) (x dx y dy : Int) :
    (c.snap_info.distance = 0 → snap_x c x dx = dx ∧ snap_y c y dy = dy)
    ∧ (0 < c.snap_info.distance →
        (snap_x c x dx ≠ dx →
          ((c.grid_info.snapping = true ∧
              ∃ k : Int, x + snap_x c x dx =
                c.grid_info.offset + k * c.grid_info.size)
            ∨ (c.guide_info.snapping = true ∧
                x + snap_x c x dx ∈ c.drag_guides.1))
          ∧ (dx - snap_x c x dx).natAbs ≤ c.snap_info.distance)
        ∧ (snap_y c y dy ≠ dy →
          ((c.grid_info.snapping = true ∧
              ∃ k : Int, y + snap_y c y dy =
                c.grid_info.offset + k * c.grid_info.size)
            ∨ (c.guide_info.snapping = true ∧
                y + snap_y c y dy ∈ c.drag_guides.2))
          ∧ (dy - snap_y c y dy).natAbs ≤ c.snap_info.distance)) := by
  constructor
  · intro h
    constructor
    · simp [snap_x, h]
    · simp [snap_y, h]
  · intro hpos
    constructor
    · intro hne
      rcases snap_x_cases c x dx hpos with h | ⟨hg, hk, hb⟩ | ⟨hgs, hm, hb⟩
      · exact absurd h hne
      · exact ⟨Or.inl ⟨hg, hk⟩, hb⟩
      · exact ⟨Or.inr ⟨hgs, hm⟩, hb⟩
    · intro hne
      rcases snap_y_cases c y dy hpos with h | ⟨hg, hk, hb⟩ | ⟨hgs, hm, hb⟩
      · exact absurd h hne
      · exact ⟨Or.inl ⟨hg, hk⟩, hb⟩
      · exact ⟨Or.inr ⟨hgs, hm⟩, hb⟩

/-- Membership in the `_guide_lines` accumulator fold: a coordinate is
collected iff it was already in the accumulator or is an edge of a
non-dragged item of the scanned list. -/
lemma guide_fold_mem (c : Canvas) (items : List ItemGeom)
    (p : List Int × List Int) (v : Int) :
    (v ∈ (items.foldl (fun (p : List Int × List Int) item =>
        if c.drag_item = some item.id then p
        else (p.1 ++ [item.x, item.x + item.dx],
              p.2 ++ [item.y, item.y + item.dy])) p).1 ↔
      v ∈ p.1 ∨ ∃ it ∈ items, ¬ c.drag_item = some it.id ∧
        (v = it.x ∨ v = it.x + it.dx))
    ∧ (v ∈ (items.foldl (fun (p : List Int × List Int) item =>
        if c.drag_item = some item.id then p
        else (p.1 ++ [item.x, item.x + item.dx],
              p.2 ++ [item.y, item.y + item.dy])) p).2 ↔
      v ∈ p.2 ∨ ∃ it ∈ items, ¬ c.drag_item = some it.id ∧
        (v = it.y ∨ v = it.y + it.dy)) := by
  induction items generalizing p with
  | nil => simp
  | cons a rest ih =>
    simp only [List.foldl_cons]
    by_cases hd : c.drag_item = some a.id
    · rw [if_pos hd]
      have hskip : ∀ (P : ItemGeom → Prop),
          (∃ it ∈ rest, ¬ c.drag_item = some it.id ∧ P it) ↔
          (∃ it ∈ a :: rest, ¬ c.drag_item = some it.id ∧ P it) := by
        intro P
        constructor
        · rintro ⟨it, hit, hnd, hp⟩
          exact ⟨it, List.mem_cons_of_mem a hit, hnd, hp⟩
        · rintro ⟨it, hit, hnd, hp⟩
          rcases List.mem_cons.mp hit with rfl | hit'
          · exact absurd hd hnd
          · exact ⟨it, hit', hnd, hp⟩
      refine ⟨Iff.trans (ih p).1 ?_, Iff.trans (ih p).2 ?_⟩
      · exact or_congr_right (hskip _)
      · exact or_congr_right (hskip _)
    · rw [if_neg hd]
      refine ⟨Iff.trans (ih _).1 ?_, Iff.trans (ih _).2 ?_⟩
      · constructor
        · rintro (hv | ⟨it, hit, hnd, hp⟩)
          · rcases List.mem_append.mp hv with h | h
            · exact Or.inl h
            · exact Or.inr ⟨a, List.mem_cons_self a rest, hd, by simpa using h⟩
          · exact Or.inr ⟨it, List.mem_cons_of_mem a hit, hnd, hp⟩
        · rintro (hv | ⟨it, hit, hnd, hp⟩)
          · exact Or.inl (List.mem_append_left _ hv)
          · rcases List.mem_cons.mp hit with rfl | hit'
            · exact Or.inl (List.mem_append_right _ (by simpa using hp))
            · exact Or.inr ⟨it, hit', hnd, hp⟩
      · constructor
        · rintro (hv | ⟨it, hit, hnd, hp⟩)
          · rcases List.mem_append.mp hv with h | h
            · exact Or.inl h
            · exact Or.inr ⟨a, List.mem_cons_self a rest, hd, by simpa using h⟩
          · exact Or.inr ⟨it, List.mem_cons_of_mem a hit, hnd, hp⟩
        · rintro (hv | ⟨it, hit, hnd, hp⟩)
          · exact Or.inl (List.mem_append_left _ hv)
          · rcases List.mem_cons.mp hit with rfl | hit'
            · exact Or.inl (List.mem_append_right _ (by simpa using hp))
            · exact Or.inr ⟨it, hit', hnd, hp⟩

/-- C2: `ListCanvas._guide_lines` collects exactly the canvas boundary
coordinates (`0` and canvas size minus one) together with the left /
right x edges and top / bottom y edges of every item other than the
item currently being dragged; the dragged item contributes nothing. -/
theorem guide_lines_edges (c : Canvas) :
    (∀ v : Int, v ∈ (guide_lines c).1 ↔
      v = 0 ∨ v = c.size.1 - 1 ∨
        ∃ it ∈ c.items, ¬ c.drag_item = some it.id ∧
          (v = it.x ∨ v = it.x + it.dx))
    ∧ (∀ v : Int, v ∈ (guide_lines c).2 ↔
      v = 0 ∨ v = c.size.2 - 1 ∨
        ∃ it ∈ c.items, ¬ c.drag_item = some it.id ∧
          (v = it.y ∨ v = it.y + it.dy)) := by
  constructor
  · intro v
    unfold guide_lines
    rw [(guide_fold_mem c c.items ([0, c.size.1 - 1], [0, c.size.2 - 1]) v).1]
    simp [or_assoc]
  · intro v
    unfold guide_lines
    rw [(guide_fold_mem c c.items ([0, c.size.1 - 1], [0, c.size.2 - 1]) v).2]
    simp [or_assoc]

/-- Updating the `state` of an item does not change its identity. -/
@[simp] lemma AItem.update_state_id (it : AItem) (s : ItemState) :
    ({ it with state := s } : AItem).id = it.id := rfl

/-- Updating the `state` of an item sets it. -/
@[simp] lemma AItem.update_state_state (it : AItem) (s : ItemState) :
    ({ it with state := s } : AItem).state = s := rfl

/-- `activate` on a genuinely new item: the resulting `active_item`,
the per-item state updates (deactivating the old active item and
activating the new one), and the notifications in firing order. -/
lemma activate_unfold (c : ActCanvas) (item : Option Nat)
    (hne : item ≠ c.active_item) :
    (activate c item).1.active_item = item
    ∧ (activate c item).1.items =
        c.items.map (fun it =>
          if item = some it.id then { it with state := ItemState.active }
          else if c.active_item = some it.id then
            { it with state := ItemState.inactive }
          else it)
    ∧ (activate c item).2 =
        c.active_item.elim [] (fun a => [Notice.deactivated a]) ++
        item.elim [] (fun i => [Notice.activated i]) := by
  rcases hA : c.active_item with _ | a <;> rcases hI : item with _ | i
  · exact absurd (hA ▸ hI) hne
  · refine ⟨by simp [activate, hA, hI, hne], ?_, by simp [activate, hA, hI, hne]⟩
    simp only [activate, hA, hI, if_neg hne]
    unfold set_state
    apply List.map_congr_left
    intro it _
    by_cases h : it.id = i
    · simp [h]
    · simp [h, Ne.symm h]
  · refine ⟨by simp [activate, hA, hI, hne], ?_, by simp [activate, hA, hI, hne]⟩
    simp only [activate, hA, hI, if_neg hne]
    unfold set_state
    apply List.map_congr_left
    intro it _
    by_cases h : it.id = a
    · simp [h]
    · simp [h, Ne.symm h]
  · have hia : i ≠ a := by
      intro h
      exact hne (by rw [hA, hI, h])
    refine ⟨by simp [activate, hA, hI, hia], ?_, by simp [activate, hA, hI, hia]⟩
    simp only [activate, hA, hI]
    rw [if_neg (show ¬ (some i : Option Nat) = some a by simp [hia])]
    unfold set_state
    dsimp only
    rw [List.map_map]
    apply List.map_congr_left
    intro it _
    simp only [Function.comp]
    by_cases h1 : it.id = i
    · have h2 : ¬ it.id = a := by omega
      simp [h1, h2, Ne.symm h2, hia, Ne.symm hia]
    · by_cases h2 : it.id = a
      · simp [h1, h2, Ne.symm h1, hia, Ne.symm hia]
      · simp [h1, h2, Ne.symm h1, Ne.symm h2]

/-- C5: `ListCanvas.activate` is a no-op when the item is already
active; otherwise it deactivates the previous active item (state
`'inactive'`, `set_deactivated` fired first), makes `item` the active
item and, when not `None`, sets its state to `'active'` and fires
`set_activated` — and it preserves the invariant that only the
`active_item` can be in state `'active'`, so at most one item on the
canvas is active after any call. -/
theorem activate_single_active (c : ActCanvas) (item : Option Nat)
    (hinv : ∀ it ∈ c.items, it.state = ItemState.active →
      c.active_item = some it.id)
    (hids : (c.items.map AItem.id).Nodup) :
    (item = c.active_item → activate c item = (c, []))
    ∧ (item ≠ c.active_item →
        (activate c item).1.active_item = item
        ∧ (activate c item).1.items =
            c.items.map (fun it =>
              if item = some it.id then { it with state := ItemState.active }
              else if c.active_item = some it.id then
                { it with state := ItemState.inactive }
              else it)
        ∧ (activate c item).2 =
            c.active_item.elim [] (fun a => [Notice.deactivated a]) ++
            item.elim [] (fun i => [Notice.activated i]))
    ∧ (∀ it ∈ (activate c item).1.items, it.state = ItemState.active →
        (activate c item).1.active_item = some it.id)
    ∧ (∀ it1 ∈ (activate c item).1.items, ∀ it2 ∈ (activate c item).1.items,
        it1.state = ItemState.active → it2.state = ItemState.active →
        it1 = it2) := by
  have hpost : ∀ it ∈ (activate c item).1.items, it.state = ItemState.active →
      (activate c item).1.active_item = some it.id := by
    intro it hit hst
    by_cases he : item = c.active_item
    · have hid : activate c item = (c, []) := by simp [activate, he]
      rw [hid] at hit ⊢
      exact hinv it hit hst
    · obtain ⟨hact, hitems, -⟩ := activate_unfold c item he
      rw [hitems] at hit
      obtain ⟨it0, hit0, heq⟩ := List.mem_map.mp hit
      rw [hact]
      by_cases h1 : item = some it0.id
      · rw [if_pos h1] at heq
        rw [← heq]
        simpa using h1
      · rw [if_neg h1] at heq
        by_cases h2 : c.active_item = some it0.id
        · rw [if_pos h2] at heq
          rw [← heq] at hst
          simp at hst
        · rw [if_neg h2] at heq
          rw [← heq] at hst
          exact absurd (hinv it0 hit0 hst) h2
  have hids' : ((activate c item).1.items.map AItem.id).Nodup := by
    by_cases he : item = c.active_item
    · have hid : activate c item = (c, []) := by simp [activate, he]
      rw [hid]
      exact hids
    · obtain ⟨-, hitems, -⟩ := activate_unfold c item he
      rw [hitems, List.map_map]
      have hcongr : ∀ a ∈ c.items,
          (AItem.id ∘ fun it =>
            if item = some it.id then { it with state := ItemState.active }
            else if c.active_item = some it.id then
              { it with state := ItemState.inactive }
            else it) a = AItem.id a := by
        intro a _
        simp only [Function.comp]
        split_ifs <;> rfl
      rw [List.map_congr_left hcongr]
      exact hids
  refine ⟨fun he => by simp [activate, he],
    fun hne => activate_unfold c item hne, hpost, ?_⟩
  intro it1 hit1 it2 hit2 hst1 hst2
  have ha1 := hpost it1 hit1 hst1
  have ha2 := hpost it2 hit2 hst2
  rw [ha1] at ha2
  injection ha2 with hid12
  exact List.inj_on_of_nodup_map hids' hit1 hit2 hid12

/-- Witness for `activate_single_active`: activating item 2 on a
two-item canvas whose item 1 is active deactivates 1, activates 2, and
leaves exactly one active item. -/
theorem activate_single_active_witness :
    activate { items := [⟨1, ItemState.active⟩, ⟨2, ItemState.inactive⟩],
               active_item := some 1 } (some 2) =
      ({ items := [⟨1, ItemState.inactive⟩, ⟨2, ItemState.active⟩],
         active_item := some 2 },
       [Notice.deactivated 1, Notice.activated 2])
    ∧ (∀ it ∈ (activate { items := [⟨1, ItemState.active⟩,
                                    ⟨2, ItemState.inactive⟩],
                          active_item := some 1 } (some 2)).1.items,
        it.state = ItemState.active →
        (activate { items := [⟨1, ItemState.active⟩, ⟨2, ItemState.inactive⟩],
                    active_item := some 1 } (some 2)).1.active_item =
          some it.id) :=
  ⟨by decide,
   (activate_single_active
      { items := [⟨1, ItemState.active⟩, ⟨2, ItemState.inactive⟩],
        active_item := some 1 } (some 2) (by decide) (by decide)).2.2.1⟩

/-- Decomposition of the items list around the replaced slice:
`items = take i ++ slice ++ drop (max i jn)`. -/
lemma slice_decomp (items : List Nat) (i : Nat) (j : Int) :
    items.take i ++ (sliced_items items i j ++
      items.drop (max i (slice_end items j))) = items := by
  rcases le_or_lt i (slice_end items j) with hle | hlt
  · rw [max_eq_right hle]
    have h1 : sliced_items items i j ++ items.drop (slice_end items j) =
        items.drop i := by
      unfold sliced_items
      have h2 : items.drop (slice_end items j) =
          (items.drop i).drop (slice_end items j - i) := by
        rw [List.drop_drop]
        congr 1
        omega
      rw [h2, List.take_append_drop]
    rw [h1, List.take_append_drop]
  · rw [max_eq_left (le_of_lt hlt)]
    have h0 : sliced_items items i j = [] := by
      unfold sliced_items
      have h1 : slice_end items j - i = 0 := by omega
      rw [h1, List.take_zero]
    rw [h0, List.nil_append, List.take_append_drop]

/-- The result list of `replace_items` is the prefix before the slice,
then the replacements, then the suffix after the slice. -/
lemma replace_items_fst (items : List Nat) (active : Option Nat)
    (new_items : List Nat) (i : Nat) (j : Int) (hi : i ≤ items.length) :
    (replace_items items active new_items i j).1 =
      items.take i ++ new_items ++ items.drop (max i (slice_end items j)) := by
  unfold replace_items
  dsimp only
  have hlen : (items.take i).length = i := by
    rw [List.length_take]
    omega
  rw [List.take_left' hlen, List.drop_left' hlen]

/-- C10: `ListCanvas.replace_items` disposes exactly the items of the
`[i:j]` slice (the whole tail when `j < 0`) and removes them from the
items list, inserts the replacement items consecutively from position
`i`, clears `active_item` whenever it belonged to the replaced slice,
and thereby preserves the invariant that a non-`None` `active_item` is
an element of the items list. -/
theorem replace_items_spec (items : List Nat) (active : Option Nat)
    (new_items : List Nat) (i : Nat) (j : Int)
    (hnd : items.Nodup)
    (hdisj : ∀ v ∈ new_items, v ∉ items)
    (hi : i ≤ items.length)
    (hactive : ∀ a, active = some a → a ∈ items) :
    ((replace_items items active new_items i j).2.2 = sliced_items items i j)
    ∧ (∀ v ∈ sliced_items items i j,
        v ∉ (replace_items items active new_items i j).1)
    ∧ (∀ k, k < new_items.length →
        (replace_items items active new_items i j).1[i + k]? = new_items[k]?)
    ∧ (∀ a, active = some a → a ∈ sliced_items items i j →
        (replace_items items active new_items i j).2.1 = none)
    ∧ (∀ a, (replace_items items active new_items i j).2.1 = some a →
        a ∈ (replace_items items active new_items i j).1) := by
  have hfst := replace_items_fst items active new_items i j hi
  have hdecomp := slice_decomp items i j
  have hnd' : (items.take i ++ (sliced_items items i j ++
      items.drop (max i (slice_end items j)))).Nodup := by
    rw [hdecomp]; exact hnd
  rw [List.nodup_append] at hnd'
  obtain ⟨-, hnd2, hdisj1⟩ := hnd'
  rw [List.nodup_append] at hnd2
  obtain ⟨-, -, hdisj2⟩ := hnd2
  refine ⟨rfl, ?_, ?_, ?_, ?_⟩
  · intro v hv
    rw [hfst]
    simp only [List.mem_append]
    rintro ((h | h) | h)
    · exact hdisj1 h (List.mem_append_left _ hv)
    · have hvi : v ∈ items := by
        rw [← hdecomp]
        exact List.mem_append_right _ (List.mem_append_left _ hv)
      exact hdisj v h hvi
    · exact hdisj2 hv h
  · intro k hk
    rw [hfst, List.append_assoc]
    have hlen : (items.take i).length = i := by
      rw [List.length_take]; omega
    rw [List.getElem?_append_right (by omega), hlen]
    have hk' : i + k - i = k := by omega
    rw [hk', List.getElem?_append_left hk]
  · intro a ha hmem
    unfold replace_items
    simp [ha, hmem]
  · intro a ha
    unfold replace_items at ha
    dsimp only at ha
    rcases active with _ | a0
    · dsimp only at ha
      exact absurd ha (by simp)
    · dsimp only at ha
      by_cases hm : a0 ∈ sliced_items items i j
      · rw [if_pos hm] at ha
        exact absurd ha (by simp)
      · rw [if_neg hm] at ha
        injection ha with ha0
        rw [hfst, ← ha0]
        have hmem : a0 ∈ items := hactive a0 rfl
        rw [← hdecomp] at hmem
        simp only [List.mem_append] at hmem ⊢
        rcases hmem with h | h | h
        · exact Or.inl (Or.inl h)
        · exact absurd h hm
        · exact Or.inr h

/-- Witness for `replace_items_spec`: replacing the slice `[1:3]` of
`[1, 2, 3, 4, 5]` by `[10, 11]` while item 3 is active disposes items
2 and 3, clears the active item, and yields `[1, 10, 11, 4, 5]`. -/
theorem replace_items_spec_witness :
    replace_items [1, 2, 3, 4, 5] (some 3) [10, 11] 1 3 =
      ([1, 10, 11, 4, 5], none, [2, 3])
    ∧ (∀ v ∈ sliced_items [1, 2, 3, 4, 5] 1 3,
        v ∉ (replace_items [1, 2, 3, 4, 5] (some 3) [10, 11] 1 3).1) :=
  ⟨by decide,
   (replace_items_spec [1, 2, 3, 4, 5] (some 3) [10, 11] 1 3
      (by decide) (by decide) (by decide)
      (fun a ha => by injection ha with h; subst h; decide)).2.1⟩

/-- The sub-adapter scan only looks at each adapter's `accepts` answer
and trait table, so two items on which every adapter agrees resolve to
the same sub-adapter. -/
lemma findSubFrom_congr (ads : List SubAdapter) (it1 it2 : PItem)
    (d1 d2 : Option PItem) (tn : String)
    (hacc : ∀ ad ∈ ads, ad.accepts it1 d1 = ad.accepts it2 d2) :
    ∀ k, findSubFrom ads k it1 d1 tn = findSubFrom ads k it2 d2 tn := by
  induction ads with
  | nil => intro k; rfl
  | cons ad rest ih =>
    intro k
    unfold findSubFrom
    rw [hacc ad (List.mem_cons_self ad rest)]
    by_cases h : (ad.accepts it2 d2 && ad.hasTrait tn) = true
    · rw [if_pos h, if_pos h]
    · rw [if_neg h, if_neg h]
      exact ih (fun a ha => hacc a (List.mem_cons_of_mem ad ha)) (k + 1)

/-- C6 counterexample (the claim as frozen): with the adapters list
`[fickleAdapter, steadyAdapter]` left unchanged, the first
`get_title` call for `personItem` is resolved by the cacheable
`steadyAdapter` (the non-cacheable `fickleAdapter` rejects that item)
and cached under `'Person:get_title'`; the subsequent call for
`person2Item` — same class `Person` — hits the cache and returns
`steadyAdapter`'s `77`, while a fresh cache-free resolution for
`person2Item` stops at `fickleAdapter`, whose item-dependent `accepts`
now answers true, and returns `99`.  So the cached call does not
always produce the same result as a fresh resolution. -/
theorem result_for_cache_divergence :
    (result_for themeAdapter [fickleAdapter, steadyAdapter]
        (result_for themeAdapter [fickleAdapter, steadyAdapter] []
          "get_title" personItem none).2
        "get_title" person2Item none).1
      ≠ (result_for themeAdapter [fickleAdapter, steadyAdapter] []
          "get_title" person2Item none).1 := by
  decide

/-- C6 (amended): `ListCanvasAdapter._result_for` caching is sound
whenever every sub-adapter's `accepts` answers the same for the items
involved (as when `accepts` depends only on the item's type): starting
from an empty cache, after a first resolution for an item the cached
handler (stored under `'ClassName:name'`) gives any later call for an
item of the same class the same result as a fresh cache-free
resolution (sub-adapter scan, then mro-specialized lookup, then
generic trait lookup), provided the adapters list is unchanged — and a
handler supplied by a sub-adapter whose `is_cacheable` is `False` is
never stored in the cache, so it is re-resolved on each call. -/
theorem result_for_cache_consistent
    (A : MainAdapter) (ads : List SubAdapter) (name : String)
    (it1 it2 : PItem) (d1 d2 : Option PItem)
    (hmro : it1.mro = it2.mro)
    (h1 : it1.lci (name.drop 4) = none)
    (h2 : it2.lci (name.drop 4) = none)
    (hacc : ∀ ad ∈ ads, ad.accepts it1 d1 = ad.accepts it2 d2) :
    ((result_for A ads (result_for A ads [] name it1 d1).2 name it2 d2).1
      = (result_for A ads [] name it2 d2).1)
    ∧ (∀ i ad, findSubFrom ads 0 it1 d1 (name.drop 4) = some (i, ad) →
        ad.is_cacheable = false →
        (result_for A ads [] name it1 d1).2 = [])
    ∧ (∀ i ad, findSubFrom ads 0 it1 d1 (name.drop 4) = some (i, ad) →
        ad.is_cacheable = true →
        (result_for A ads [] name it1 d1).2 =
          [(it1.className ++ ":" ++ name,
            Handler.sub (name.take 4 == "get_") i (name.drop 4))]) := by
  have hkey : it1.className = it2.className := by
    unfold PItem.className
    rw [hmro]
  have hfs : findSubFrom ads 0 it1 d1 (name.drop 4) =
      findSubFrom ads 0 it2 d2 (name.drop 4) :=
    findSubFrom_congr ads it1 it2 d1 d2 (name.drop 4) hacc 0
  rcases hsf : findSubFrom ads 0 it1 d1 (name.drop 4) with _ | ⟨i, ad⟩
  · -- no sub-adapter accepts: mro / generic resolution
    refine ⟨?_, ?_, ?_⟩
    · rcases hmh : mroAttr A it1.mro (name.drop 4) with _ | nm
      · rcases hgh : get_handler_for A (name.drop 4) (name.take 4 == "get_")
            with _ | h
        · -- not even a generic handler: nothing is cached
          simp only [result_for, h1, h2, List.lookup_nil, hsf, ← hfs, hmh,
            ← hmro, hgh]
        · -- generic handler cached and re-used
          simp only [result_for, h1, h2, List.lookup_nil, hsf, ← hfs, hmh,
            ← hmro, hgh]
          rw [hkey]
          simp [List.lookup]
      · -- mro-specialized handler cached and re-used
        simp only [result_for, h1, h2, List.lookup_nil, hsf, ← hfs, hmh,
          ← hmro]
        rw [hkey]
        simp [List.lookup]
    · intro i' ad' hsf' _
      exact Option.noConfusion hsf'
    · intro i' ad' hsf' _
      exact Option.noConfusion hsf'
  · by_cases hic : ad.is_cacheable = true
    · refine ⟨?_, ?_, ?_⟩
      · -- cacheable sub-adapter handler cached and re-used
        simp only [result_for, h1, h2, List.lookup_nil, hsf, ← hfs, hic,
          if_true]
        rw [hkey]
        simp [List.lookup]
      · intro i' ad' hsf' hic'
        injection hsf' with hp
        injection hp with hpi hpa
        rw [← hpa] at hic'
        rw [hic] at hic'
        exact Bool.noConfusion hic'
      · -- the key holds the resolved sub-adapter handler
        intro i' ad' hsf' _
        injection hsf' with hp
        injection hp with hpi hpa
        subst hpi
        simp only [result_for, h1, List.lookup_nil, hsf, hic, if_true]
    · refine ⟨?_, ?_, ?_⟩
      · -- non-cacheable: the first call cached nothing, so the second
        -- call is literally a fresh resolution
        have hb : ad.is_cacheable = false := by
          revert hic
          cases ad.is_cacheable <;> simp
        simp only [result_for, h1, h2, List.lookup_nil, hsf, ← hfs, hb,
          Bool.false_eq_true, if_false]
      · intro i' ad' hsf' hic'
        have hb : ad.is_cacheable = false := by
          revert hic
          cases ad.is_cacheable <;> simp
        simp only [result_for, h1, hsf, List.lookup_nil, hb,
          Bool.false_eq_true, if_false]
      · intro i' ad' hsf' hic'
        injection hsf' with hp
        injection hp with hpi hpa
        rw [← hpa] at hic'
        exact absurd hic' hic

/-- Witness for `result_for_cache_consistent` with the non-empty
adapters list `[steadyAdapter]`, whose constant `accepts` satisfies
the agreement hypothesis: the first `get_title` call for `personItem`
stores `steadyAdapter`'s handler under `'Person:get_title'`, and the
cached call for `person2Item` agrees with a fresh resolution. -/
theorem result_for_cache_consistent_witness :
    ((result_for themeAdapter [steadyAdapter]
        (result_for themeAdapter [steadyAdapter] [] "get_title" personItem
          none).2
        "get_title" person2Item none).1
      = (result_for themeAdapter [steadyAdapter] [] "get_title" person2Item
          none).1)
    ∧ (result_for themeAdapter [steadyAdapter] [] "get_title" personItem
        none).2 =
        [(personItem.className ++ ":" ++ "get_title",
          Handler.sub ("get_title".take 4 == "get_") 0 ("get_title".drop 4))] :=
  ⟨(result_for_cache_consistent themeAdapter [steadyAdapter] "get_title"
      personItem person2Item none none rfl rfl rfl
      (fun ad ha => by rw [List.mem_singleton.mp ha]; rfl)).1,
   (result_for_cache_consistent themeAdapter [steadyAdapter] "get_title"
      personItem person2Item none none rfl rfl rfl
      (fun ad ha => by rw [List.mem_singleton.mp ha]; rfl)).2.2 0
      steadyAdapter rfl rfl⟩

/-- C9: `ListCanvasAdapter.get_theme_inactive` returns the resolved
inactive theme when it is non-`None` and otherwise falls back to the
resolved active theme; `get_theme_hover` returns the first non-`None`
result among the resolved hover, inactive and active themes, in that
order. -/
theorem get_theme_fallback_order (A : MainAdapter) (ads : List SubAdapter)
    (cache : Cache) (it : PItem) (t : Nat) :
    ((result_for A ads cache "get_theme_inactive" it none).1 = some (some t) →
      (get_theme_inactive A ads cache it).1 = some (some t))
    ∧ ((result_for A ads cache "get_theme_inactive" it none).1 = some none →
      get_theme_inactive A ads cache it =
        result_for A ads
          (result_for A ads cache "get_theme_inactive" it none).2
          "get_theme_active" it none)
    ∧ ((result_for A ads cache "get_theme_hover" it none).1 = some (some t) →
      (get_theme_hover A ads cache it).1 = some (some t))
    ∧ ((result_for A ads cache "get_theme_hover" it none).1 = some none →
      (result_for A ads (result_for A ads cache "get_theme_hover" it none).2
          "get_theme_inactive" it none).1 = some (some t) →
      (get_theme_hover A ads cache it).1 = some (some t))
    ∧ ((result_for A ads cache "get_theme_hover" it none).1 = some none →
      (result_for A ads (result_for A ads cache "get_theme_hover" it none).2
          "get_theme_inactive" it none).1 = some none →
      get_theme_hover A ads cache it =
        result_for A ads
          (result_for A ads
            (result_for A ads cache "get_theme_hover" it none).2
            "get_theme_inactive" it none).2
          "get_theme_active" it none) := by
  refine ⟨?_, ?_, ?_, ?_, ?_⟩
  · intro h
    simp only [get_theme_inactive, h]
  · intro h
    simp only [get_theme_inactive, h]
  · intro h
    simp only [get_theme_hover, h]
  · intro h h'
    simp only [get_theme_hover, h, h']
  · intro h h'
    simp only [get_theme_hover, h, h']

/-- Witness for `get_theme_fallback_order`: with `themeAdapter`, whose
inactive theme resolves to `5`, `get_theme_inactive` returns it. -/
theorem get_theme_fallback_order_witness :
    (get_theme_inactive themeAdapter [] [] personItem).1 = some (some 5) :=
  (get_theme_fallback_order themeAdapter [] [] personItem 5).1 (by rfl)

end Theorems

end ListCanvasEditor
